import Mathlib

/-!
# Verification of the Autoficate cache, export and cookie layers

A shallow embedding of the core logic of `src/main/views.py` (class
`IndexView`) and `src/main/models.py`: the cache synchronization engine
(`reload_cache`, `verify_user_type`), the spreadsheet import
(`store_excel_to_model`), the export pipeline (`render_and_zip_images`
and its helpers), the identity-binding cookie layer
(`encrypted_cookie_data` / `decrypt_cookie_data`), and the
store-mutating POST branches (rename / delete of item sets).

Strings are modelled as `List Char`, bytes as `Nat` (reduced mod 256
where arithmetic happens), the Django cache as a total function from
keys to optional values, and the per-user slice of the persistent store
as an association list from headings to item lists.
-/

namespace Autoficate

/-- Python strings are modelled as lists of characters. -/
abbrev Str := List Char

/-- One row of `DataItemSetModel` restricted to a single user: the
heading and the (already parsed) ordered item list.  In the store the
item list is kept as its parsed form; `views.py` stores
`str(list)` and re-parses with `ast.literal_eval`. -/
abbrev Row := Str × List Str

/-- A value held by the Django cache: item windows and header lists are
Python lists of strings, full-availability flags are booleans. -/
inductive CacheVal
  | vlist (l : List Str)
  | vflag (b : Bool)
deriving DecidableEq

/-- The Django cache (`django.core.cache.cache`): a key-value store. -/
abbrev Cache := Str → Option CacheVal

/-- `cache.set(k, v)`. -/
def cset (c : Cache) (k : Str) (v : CacheVal) : Cache :=
  fun k' => if k' = k then some v else c k'

/-- `cache.delete(k)`. -/
def cdel (c : Cache) (k : Str) : Cache :=
  fun k' => if k' = k then none else c k'

/-- `self.cache_key_header = f"{user_code}-db_cache_headers"`
(views.py line 476). -/
def headerKey (u : Str) : Str := u ++ "-db_cache_headers".toList

/-- Item-window cache key `f"{self.session['user_code']}-{item}"`
(views.py line 317). -/
def itemKey (u h : Str) : Str := u ++ "-".toList ++ h

/-- Full-availability cache key
`f"{self.session['user_code']}-{item}-full_available"` (views.py line 324). -/
def flagKey (u h : Str) : Str := u ++ "-".toList ++ h ++ "-full_available".toList

/-- `cache_max_limit = 5` (views.py line 1020). -/
def cache_max_limit : Nat := 5

/-- Exit status of `reload_cache`: a normal return, the
`ObjectDoesNotExist` handler's `return False` ("no item data in DB"),
or an uncaught exception re-raised by the final handler. -/
inductive ReloadStatus
  | normal
  | noData
  | raised
deriving DecidableEq

/-- One iteration of the item-window write loop of `reload_cache`
(views.py lines 316-320): computes `cache_key = f"{user_code}-{item}"`,
skips the write when it equals the header-list key, otherwise caches the
first `cache_max_limit` items. -/
def itemWriteStep (u : Str) (acc : Cache) (p : Str × List Str) : Cache :=
  let ck := itemKey u p.1
  if ck = headerKey u then acc
  else cset acc ck (.vlist (p.2.take cache_max_limit))

/-- One iteration of the full-availability write loop of `reload_cache`
(views.py lines 323-327): the flag is `len(inspector_data) <=
cache_max_limit`, computed on the untruncated list. -/
def flagWriteStep (u : Str) (acc : Cache) (p : Str × List Str) : Cache :=
  cset acc (flagKey u p.1) (.vflag (decide (p.2.length ≤ cache_max_limit)))

/-- The `header_items` half of `reload_cache` (views.py lines 287-327),
returning the cache after the item phase or the raised status.

Python evaluates `header_items[0] == "__all__"`, so an empty list raises
`IndexError` (`.raised`).  Only when the first element is the sentinel
`"__all__"` does the body resolve the heading list (from the store if
`headers`, otherwise from the cached header-list entry, raising
`ObjectDoesNotExist` — `.noData` — when that entry is absent; a cached
non-list value would be iterated by the `for` loop and raise `TypeError`,
`.raised`), read and buffer every heading's items (a heading missing
from the store raises `ObjectDoesNotExist` before any write), and only
then run the two write loops.  A `header_items` list whose first element
is any other string falls through the `if` and writes nothing: the
refresh body sits inside the sentinel branch. -/
def reloadItemsPhase (u : Str) (store : List Row) (c : Cache) (headers : Bool) :
    Option (List Str) → Except ReloadStatus Cache
  | none => .ok c
  | some [] => .error .raised
  | some (i0 :: _) =>
    if i0 = "__all__".toList then
      match (if headers then Except.ok (store.map Prod.fst)
             else
               match c (headerKey u) with
               | some (.vlist hs) => Except.ok hs
               | some (.vflag _) => Except.error ReloadStatus.raised
               | none => Except.error ReloadStatus.noData) with
      | .error st => .error st
      | .ok hs =>
        match hs.mapM (fun h => (store.lookup h).map (fun d => (h, d))) with
        | none => .error .noData
        | some pairs => .ok (pairs.foldl (flagWriteStep u) (pairs.foldl (itemWriteStep u) c))
    else .ok c

/-- `IndexView.reload_cache(headers, header_items)` (views.py lines
276-344), for a fixed user `u` whose store rows are `store`: runs the
item phase, then — only on a normal exit — `headers = true` overwrites
the header-list cache entry with the fresh heading list read from the
store at entry.  An exception inside the `try` skips that final write,
so the cache is returned unchanged there (all item writes happen after
buffering completes). -/
def reload_cache (u : Str) (store : List Row) (c : Cache)
    (headers : Bool) (headerItems : Option (List Str)) : Cache × ReloadStatus :=
  match reloadItemsPhase u store c headers headerItems with
  | .error st => (c, st)
  | .ok c' =>
    (if headers then cset c' (headerKey u) (.vlist (store.map Prod.fst)) else c',
     .normal)

/-- C1: For a heading named explicitly (not via the `"__all__"`
sentinel), `reload_cache` completes normally but writes neither the
item-window entry nor the full-availability flag: with user `"bcfg"`,
a stored heading `"A"` carrying six items and an empty cache, the call
`reload_cache(headers=False, header_items=["A"])` returns normally and
leaves both cache entries for `"A"` absent, instead of caching the
first `min(6, 5)` items and a `false` flag as the claim requires. -/
theorem reload_cache_ignores_named_headings :
    (reload_cache "bcfg".toList
        [("A".toList,
          ["a1".toList, "a2".toList, "a3".toList,
           "a4".toList, "a5".toList, "a6".toList])]
        (fun _ => none) false (some ["A".toList])).2 = ReloadStatus.normal ∧
    (reload_cache "bcfg".toList
        [("A".toList,
          ["a1".toList, "a2".toList, "a3".toList,
           "a4".toList, "a5".toList, "a6".toList])]
        (fun _ => none) false (some ["A".toList])).1
      (itemKey "bcfg".toList "A".toList) = none ∧
    (reload_cache "bcfg".toList
        [("A".toList,
          ["a1".toList, "a2".toList, "a3".toList,
           "a4".toList, "a5".toList, "a6".toList])]
        (fun _ => none) false (some ["A".toList])).1
      (flagKey "bcfg".toList "A".toList) = none := by
  refine ⟨rfl, ?_, ?_⟩ <;> decide

theorem cset_self (c : Cache) (k : Str) (v : CacheVal) : cset c k v k = some v := by
  simp [cset]

theorem cset_ne (c : Cache) (k k' : Str) (v : CacheVal) (h : k' ≠ k) :
    cset c k v k' = c k' := by
  simp [cset, h]

/-- The full-availability key of any heading differs from the header-list
key of the same user: after cancelling the common `{user_code}-` prefix,
the suffixes `{heading}-full_available` and `db_cache_headers` can only
match if the heading has exactly one character, and then the character
comparison fails. -/
theorem flagKey_ne_headerKey (u h : Str) : flagKey u h ≠ headerKey u := by
  intro he
  unfold flagKey headerKey at he
  rw [List.append_assoc, List.append_assoc] at he
  have he2 : "-".toList ++ (h ++ "-full_available".toList) = "-db_cache_headers".toList :=
    (List.append_right_inj u).mp he
  have hlen : h.length + 15 = 16 := by
    have := congrArg List.length he2
    simpa using this
  have h1 : h.length = 1 := by omega
  match h, h1 with
  | [x], _ => simp at he2

theorem itemWriteStep_headerKey (u : Str) (acc : Cache) (p : Str × List Str) :
    itemWriteStep u acc p (headerKey u) = acc (headerKey u) := by
  unfold itemWriteStep
  by_cases hk : itemKey u p.1 = headerKey u
  · simp [hk]
  · simp only [if_neg hk]
    exact cset_ne _ _ _ _ (fun hh => hk hh.symm)

theorem flagWriteStep_headerKey (u : Str) (acc : Cache) (p : Str × List Str) :
    flagWriteStep u acc p (headerKey u) = acc (headerKey u) := by
  unfold flagWriteStep
  exact cset_ne _ _ _ _ (fun hh => flagKey_ne_headerKey u p.1 hh.symm)

theorem foldl_itemWriteStep_headerKey (u : Str) (pairs : List (Str × List Str)) (c : Cache) :
    (pairs.foldl (itemWriteStep u) c) (headerKey u) = c (headerKey u) := by
  induction pairs generalizing c with
  | nil => rfl
  | cons p rest ih => rw [List.foldl_cons, ih, itemWriteStep_headerKey]

theorem foldl_flagWriteStep_headerKey (u : Str) (pairs : List (Str × List Str)) (c : Cache) :
    (pairs.foldl (flagWriteStep u) c) (headerKey u) = c (headerKey u) := by
  induction pairs generalizing c with
  | nil => rfl
  | cons p rest ih => rw [List.foldl_cons, ih, flagWriteStep_headerKey]

/-- The item phase of `reload_cache` never changes the header-list cache
entry: the item-window loop skips a computed key equal to it and the
flag-key namespace cannot collide with it. -/
theorem reloadItemsPhase_headerKey (u : Str) (store : List Row) (c : Cache)
    (headers : Bool) (hi : Option (List Str)) (c' : Cache)
    (hok : reloadItemsPhase u store c headers hi = .ok c') :
    c' (headerKey u) = c (headerKey u) := by
  match hi with
  | none =>
    simp only [reloadItemsPhase] at hok
    cases hok
    rfl
  | some [] => simp [reloadItemsPhase] at hok
  | some (i0 :: rest) =>
    simp only [reloadItemsPhase] at hok
    by_cases hs : i0 = "__all__".toList
    · rw [if_pos hs] at hok
      split at hok
      · exact absurd hok (by simp)
      · split at hok
        · exact absurd hok (by simp)
        · cases hok
          rw [foldl_flagWriteStep_headerKey, foldl_itemWriteStep_headerKey]
    · rw [if_neg hs] at hok
      cases hok
      rfl

/-- C7: during an item refresh (`reload_cache`), the header-list cache
entry is never overwritten by an item window — a computed item-window
key that equals `{user_code}-db_cache_headers` is skipped, and the
full-availability keys cannot collide with it — so after any call the
entry either still holds its previous value or (when `headers` was
requested and the call returned normally) holds exactly the heading
list read from the store. -/
theorem reload_cache_preserves_header_entry (u : Str) (store : List Row) (c : Cache)
    (headers : Bool) (headerItems : Option (List Str)) :
    (reload_cache u store c headers headerItems).1 (headerKey u) = c (headerKey u) ∨
    (reload_cache u store c headers headerItems).1 (headerKey u)
      = some (.vlist (store.map Prod.fst)) := by
  unfold reload_cache
  cases hph : reloadItemsPhase u store c headers headerItems with
  | error st => left; rfl
  | ok c' =>
    cases headers with
    | false =>
      left
      simpa using reloadItemsPhase_headerKey u store c false headerItems c' hph
    | true =>
      right
      simpa using cset_self c' (headerKey u) (.vlist (store.map Prod.fst))

/-- Result of a store-mutating POST branch: whether it ran to the end
without an exception escaping, plus the user's store rows and the cache
at exit. -/
structure BranchOutcome where
  ok : Bool
  store : List Row
  cache : Cache

/-- The `inspector_header_item_remove` POST branch (views.py lines
1476-1498): fetch the row (an absent heading raises
`ObjectDoesNotExist`, which escapes to the outer handler with nothing
changed), delete it from the store, then call
`cache.delete(instance.item_set_heading)` — the bare heading string is
used as the cache key, not the `{user_code}-{heading}` item-window key —
and finally `reload_cache(headers=True, header_items=None)`, which
rewrites only the header-list entry. -/
def inspector_header_item_remove (u : Str) (store : List Row) (c : Cache)
    (removeHeader : Str) : BranchOutcome :=
  match store.lookup removeHeader with
  | none => ⟨false, store, c⟩
  | some _ =>
    let store' := store.eraseP (fun r => decide (r.1 = removeHeader))
    let c1 := cdel c removeHeader
    ⟨true, store', (reload_cache u store' c1 true none).1⟩

/-- C6: deleting an item set does not evict the cache entries keyed by
its heading.  With user `"bcfg"` and heading `"A"` cached under
`"bcfg-A"` (window) and `"bcfg-A-full_available"` (flag), removing
`"A"` deletes the row and refreshes the header list, but — because
`cache.delete` is called with the bare heading `"A"` — both the
item-window entry and the full-availability flag survive as stale
entries for a heading no longer in the store. -/
theorem remove_branch_leaves_stale_item_cache :
    (inspector_header_item_remove "bcfg".toList [("A".toList, ["a1".toList])]
        (cset (cset (cset (fun _ => none)
            (headerKey "bcfg".toList) (.vlist ["A".toList]))
            (itemKey "bcfg".toList "A".toList) (.vlist ["a1".toList]))
            (flagKey "bcfg".toList "A".toList) (.vflag true))
        "A".toList).ok = true ∧
    (inspector_header_item_remove "bcfg".toList [("A".toList, ["a1".toList])]
        (cset (cset (cset (fun _ => none)
            (headerKey "bcfg".toList) (.vlist ["A".toList]))
            (itemKey "bcfg".toList "A".toList) (.vlist ["a1".toList]))
            (flagKey "bcfg".toList "A".toList) (.vflag true))
        "A".toList).store = [] ∧
    (inspector_header_item_remove "bcfg".toList [("A".toList, ["a1".toList])]
        (cset (cset (cset (fun _ => none)
            (headerKey "bcfg".toList) (.vlist ["A".toList]))
            (itemKey "bcfg".toList "A".toList) (.vlist ["a1".toList]))
            (flagKey "bcfg".toList "A".toList) (.vflag true))
        "A".toList).cache (itemKey "bcfg".toList "A".toList)
      = some (.vlist ["a1".toList]) ∧
    (inspector_header_item_remove "bcfg".toList [("A".toList, ["a1".toList])]
        (cset (cset (cset (fun _ => none)
            (headerKey "bcfg".toList) (.vlist ["A".toList]))
            (itemKey "bcfg".toList "A".toList) (.vlist ["a1".toList]))
            (flagKey "bcfg".toList "A".toList) (.vflag true))
        "A".toList).cache (flagKey "bcfg".toList "A".toList)
      = some (.vflag true) := by
  refine ⟨rfl, by decide, by decide, by decide⟩

/-- An exception escaping the `update_item_heading` POST branch. -/
inductive UpdateErr
  | headerDataNotFound
  | typeError
  | querySetSave
  | indexError
deriving DecidableEq

/-- Result of the `update_item_heading` branch: the raised exception or
the new `current_header`, plus the store rows and cache at exit. -/
structure UpdateOutcome where
  result : Except UpdateErr Str
  store : List Row
  cache : Cache

/-- `len(cache.get(self.cache_key_header, []))` (views.py line 1184):
an absent entry defaults to the empty list; a cached boolean would make
`len` raise `TypeError` (`none`). -/
def headerCacheLen? (c : Cache) (u : Str) : Option Nat :=
  match c (headerKey u) with
  | none => some 0
  | some (.vlist hs) => some hs.length
  | some (.vflag _) => none

/-- Instance resolution of the `update_item_heading` branch (views.py
lines 1183-1230): when the cached header list is empty or absent, reuse
the blank-heading row set if it exists — the code then keeps the
*QuerySet* object as `instance`, whose later `.save()` raises
`AttributeError` — otherwise a fresh row; when the cached header list is
non-empty, fetch the row named by the session's `current_header`; on
`ObjectDoesNotExist` the handler re-fetches (raising
`HeaderDataNotFoundError` when `current_header` is non-empty, since the
same lookup fails again), then falls back to the form's heading, then
gives up.  `some i` is the index of the row to update, `none` a fresh
blank row. -/
def resolveInstance (store : List Row) (hlen : Nat)
    (currentHeader? : Option Str) (formHeading : Str) :
    Except UpdateErr (Option Nat) :=
  if hlen = 0 then
    match store.findIdx? (fun r => decide (r.1 = [])) with
    | some _ => .error .querySetSave
    | none => .ok none
  else
    match currentHeader?.bind (fun ch => store.findIdx? (fun r => decide (r.1 = ch))) with
    | some i => .ok (some i)
    | none =>
      if currentHeader?.getD [] ≠ [] then .error .headerDataNotFound
      else if formHeading ≠ [] then
        match store.findIdx? (fun r => decide (r.1 = formHeading)) with
        | some i => .ok (some i)
        | none => .error .headerDataNotFound
      else .error .headerDataNotFound

/-- The `update_item_heading` POST branch (views.py lines 1175-1264) for
a valid form: resolve the instance, then inside `transaction.atomic`
assign the form's heading (plus position/font/color fields, which do not
touch the item list) and save — there is no check against another row
already holding that heading — set `current_header` to the form heading,
and call `reload_cache(headers=True,
header_items=instance.item_set_heading)`.  That last argument is a
*string*, so `header_items[0]` is its first character (a one-character
string, never the `"__all__"` sentinel; an empty heading raises
`IndexError` after the commit).  The preview-rendering tail is omitted:
it does not touch the store rows, the cache, or the heading. -/
def update_item_heading (u : Str) (store : List Row) (c : Cache)
    (currentHeader? : Option Str) (formHeading : Str) : UpdateOutcome :=
  match headerCacheLen? c u with
  | none => ⟨.error .typeError, store, c⟩
  | some hlen =>
    match resolveInstance store hlen currentHeader? formHeading with
    | .error e => ⟨.error e, store, c⟩
    | .ok inst? =>
      let store' :=
        match inst? with
        | some i =>
          match store.get? i with
          | some row => store.set i (formHeading, row.2)
          | none => store
        | none => store ++ [(formHeading, [])]
      if formHeading = [] then ⟨.error .indexError, store', c⟩
      else
        ⟨.ok formHeading, store',
         (reload_cache u store' c true (some (formHeading.map (fun ch => [ch])))).1⟩

/-- C5: renaming an item set onto a heading that already exists with
non-empty data is not rejected.  With user `"bcfg"`, rows `"A"` (items
`["a"]`) and `"B"` (items `["b1", "b2"]`), a cached header list
`["A", "B"]` and `current_header = "A"`, submitting the rename form with
heading `"B"` completes without any conflict error and saves row `"A"`
under the heading `"B"`, leaving two rows named `"B"` — no
`SimilarItemHeadingDataError` is raised and the store is changed. -/
theorem update_item_heading_rename_collision_not_rejected :
    (update_item_heading "bcfg".toList
        [("A".toList, ["a".toList]), ("B".toList, ["b1".toList, "b2".toList])]
        (cset (fun _ => none) (headerKey "bcfg".toList)
          (.vlist ["A".toList, "B".toList]))
        (some "A".toList) "B".toList).result = .ok "B".toList ∧
    (update_item_heading "bcfg".toList
        [("A".toList, ["a".toList]), ("B".toList, ["b1".toList, "b2".toList])]
        (cset (fun _ => none) (headerKey "bcfg".toList)
          (.vlist ["A".toList, "B".toList]))
        (some "A".toList) "B".toList).store
      = [("B".toList, ["a".toList]), ("B".toList, ["b1".toList, "b2".toList])] := by
  refine ⟨rfl, by decide⟩

/-- One `DataItemSetModel` row as the export pipeline sees it:
`item_set` is the *stored string* (e.g. `"['a1', 'a2']"`), never parsed
by `render_and_zip_images`. -/
structure DataItem where
  item_set : Str
  color : Str
  font_name : Str
  font_size : Nat
  position_x : Nat
  position_y : Nat
deriving DecidableEq

/-- Insert one data item into the grouping dictionary, preserving
insertion order as a Python dict does. -/
def groupInsert (key : Str) (d : DataItem) :
    List (Str × List DataItem) → List (Str × List DataItem)
  | [] => [(key, [d])]
  | (k, ds) :: rest =>
    if k = key then (k, ds ++ [d]) :: rest else (k, ds) :: groupInsert key d rest

/-- The grouping loop of `render_and_zip_images` (views.py lines
728-734): `index_position = data_item.item_set.index` — `item_set` is
the stored string and `.index` *without a call* is the bound
`str.index` method object, which becomes the dict key.  Two such method
objects compare equal exactly when the same function is bound over equal
strings, so the effective grouping key is the raw `item_set` string;
it is never a list index position. -/
def grouped_data_items (items : List DataItem) : List (Str × List DataItem) :=
  items.foldl (fun acc d => groupInsert d.item_set d acc) []

/-- C4: the export does not group items by list index position.  With a
row whose stored list is `"['a1', 'a2', 'a3']"` (three items) and one
whose stored list is `"['b1']"` (one item), the grouping produces one
group per distinct raw `item_set` string — each holding the whole row —
so there are 2 groups instead of the claimed 3 per-index outputs, and no
group combines the i-th elements of the two lists. -/
theorem grouping_is_by_raw_item_set_string :
    grouped_data_items
        [⟨"['a1', 'a2', 'a3']".toList, "#336699FF".toList, "arial".toList, 12, 0, 0⟩,
         ⟨"['b1']".toList, "#336699FF".toList, "arial".toList, 12, 10, 10⟩]
      = [("['a1', 'a2', 'a3']".toList,
          [⟨"['a1', 'a2', 'a3']".toList, "#336699FF".toList, "arial".toList, 12, 0, 0⟩]),
         ("['b1']".toList,
          [⟨"['b1']".toList, "#336699FF".toList, "arial".toList, 12, 10, 10⟩])] ∧
    (grouped_data_items
        [⟨"['a1', 'a2', 'a3']".toList, "#336699FF".toList, "arial".toList, 12, 0, 0⟩,
         ⟨"['b1']".toList, "#336699FF".toList, "arial".toList, 12, 10, 10⟩]).length = 2 := by
  refine ⟨by decide, by decide⟩

/-- The filesystem state touched by one export run: whether the per-user
scratch folder `MEDIA_ROOT/{user_code}` exists, the output files written
into it, and whether the archive was written. -/
structure ExportFS where
  tempFolderExists : Bool
  outputFiles : List Str
  zipWritten : Bool
deriving DecidableEq

/-- An exception raised inside the export loop. -/
inductive ExportErr
  | renderFailed
  | invalidFormat
deriving DecidableEq

/-- `f"output_index_{index_position}.{ext}"` (views.py lines 748-760);
the interpolated `index_position` is the grouping key (see
`grouped_data_items`; in Python its `str()` is the method object's repr). -/
def outputFileName (key : Str) (fmt : Str) : Str :=
  "output_index_".toList ++ key ++ ".".toList ++ fmt

/-- The per-group body of `render_and_zip_images` (views.py lines
739-767).  Color decoding and text rendering (`hex_to_rgb_with_alpha`,
`render_text_on_image`: PIL image decode, font lookup, storage I/O) are
abstracted into the fallible `render` parameter.  After a successful
render the output format is dispatched; an unsupported format raises
`ValueError`.  Any exception propagates immediately, carrying the
filesystem state reached so far — there is no handler in the
function. -/
def renderLoop (render : Str × List DataItem → Except Unit Str) (fmt : Str) :
    List (Str × List DataItem) → ExportFS → Except (ExportErr × ExportFS) ExportFS
  | [], fs => .ok fs
  | g :: rest, fs =>
    match render g with
    | .error _ => .error (.renderFailed, fs)
    | .ok _ =>
      if fmt = "png".toList ∨ fmt = "jpeg".toList ∨ fmt = "pdf".toList then
        renderLoop render fmt rest
          { fs with outputFiles := fs.outputFiles ++ [outputFileName g.1 fmt] }
      else .error (.invalidFormat, fs)

/-- `IndexView.render_and_zip_images(user_code, output_format)`
(views.py lines 717-776): create the scratch folder (`os.makedirs`),
group the data items, run the render loop, then — only after the loop
completes — zip the folder and call `delete_temp_folder`.  There is no
`try`/`finally`: an exception anywhere in the loop propagates with the
scratch folder still in place, and only the success path removes it. -/
def render_and_zip_images (render : Str × List DataItem → Except Unit Str)
    (u : Str) (items : List DataItem) (fmt : Str) (fs0 : ExportFS) :
    Except (ExportErr × ExportFS) (ExportFS × Str) :=
  let fs1 := { fs0 with tempFolderExists := true }
  match renderLoop render fmt (grouped_data_items items) fs1 with
  | .error e => .error e
  | .ok fs2 =>
    let fs3 := { fs2 with zipWritten := true }
    let fs4 := { fs3 with tempFolderExists := false, outputFiles := [] }
    .ok (fs4, u ++ "_output.zip".toList)

/-- C3: when rendering raises, the scratch working directory survives
the call.  With one data item and a renderer that raises on its first
group, `render_and_zip_images` propagates the exception and the
filesystem state it carries still has the per-user scratch folder in
place — cleanup runs only on the success path. -/
theorem render_failure_leaves_scratch_directory :
    render_and_zip_images (fun _ => .error ()) "bcfg".toList
        [⟨"['a1']".toList, "#336699FF".toList, "arial".toList, 12, 0, 0⟩]
        "png".toList ⟨false, [], false⟩
      = .error (.renderFailed, ⟨true, [], false⟩) := rfl

/-- `not cache.get(self.cache_key_header) and user_code` (views.py line
551): Python truthiness — an absent entry (`None`), an empty cached
list, or a cached `False` all count as "not cached"; the user code must
be a non-empty string. -/
def staleHeaderCheck (c : Cache) (u : Str) : Bool :=
  (match c (headerKey u) with
   | none => true
   | some (.vlist hs) => hs.isEmpty
   | some (.vflag b) => !b) && !u.isEmpty

/-- The cache-reload step of `verify_user_type` (views.py lines
549-552): when the truthiness check reports the header entry as stale,
`reload_cache(headers=True, header_items=["__all__"])` repopulates from
the store; otherwise the cache is left alone. -/
def verify_user_type_reload (u : Str) (store : List Row) (c : Cache) : Cache :=
  if staleHeaderCheck c u then
    (reload_cache u store c true (some ["__all__".toList])).1
  else c

/-- C9 counterexample: a header-list cache entry holding a legitimately
empty list is *not* treated as present.  With user `"bcfg"`, a store
holding heading `"A"` and the cache entry `{user}-db_cache_headers ↦ []`,
the staleness check fires and the reload runs, overwriting the entry
from the store — repopulation was triggered even though the cache key
was present. -/
theorem empty_cached_header_list_triggers_reload :
    staleHeaderCheck
        (cset (fun _ => none) (headerKey "bcfg".toList) (.vlist []))
        "bcfg".toList = true ∧
    (verify_user_type_reload "bcfg".toList [("A".toList, ["a1".toList])]
        (cset (fun _ => none) (headerKey "bcfg".toList) (.vlist [])))
        (headerKey "bcfg".toList)
      = some (.vlist ["A".toList]) := by
  refine ⟨by decide, by decide⟩

/-- C9 (amended): the staleness signal for the header-list entry is
Python truthiness, not key presence — with a present cached list, a
reload is triggered exactly when that list is empty, and a non-empty
cached list is the only thing that suppresses repopulation. -/
theorem header_staleness_signal_is_truthiness (u : Str) (store : List Row)
    (c : Cache) (hs : List Str)
    (hc : c (headerKey u) = some (.vlist hs)) (hu : u ≠ []) :
    (staleHeaderCheck c u = true ↔ hs = []) ∧
    (hs ≠ [] → verify_user_type_reload u store c = c) := by
  constructor
  · simp [staleHeaderCheck, hc, hu]
  · intro hne
    simp [verify_user_type_reload, staleHeaderCheck, hc, hu, hne]

/-- Witness for `header_staleness_signal_is_truthiness` at user
`"bcfg"` with a non-empty cached header list `["A"]`. -/
theorem header_staleness_signal_is_truthiness_witness :
    (staleHeaderCheck
        (cset (fun _ => none) (headerKey "bcfg".toList) (.vlist ["A".toList]))
        "bcfg".toList = true ↔ ["A".toList] = ([] : List Str)) ∧
    (["A".toList] ≠ ([] : List Str) →
      verify_user_type_reload "bcfg".toList [("A".toList, ["a1".toList])]
          (cset (fun _ => none) (headerKey "bcfg".toList) (.vlist ["A".toList]))
        = cset (fun _ => none) (headerKey "bcfg".toList) (.vlist ["A".toList])) :=
  header_staleness_signal_is_truthiness "bcfg".toList
    [("A".toList, ["a1".toList])]
    (cset (fun _ => none) (headerKey "bcfg".toList) (.vlist ["A".toList]))
    ["A".toList] (by decide) (by decide)

/-- The standard base64 alphabet, in index order. -/
def b64Chars : List Char :=
  ("ABCDEFGHIJKLMNOPQRSTUVWXYZabcdefghijklmnopqrstuvwxyz0123456789+/").toList

/-- The base64 digit for a 6-bit value. -/
def b64Table (n : Nat) : Char :=
  b64Chars.get ⟨n % b64Chars.length, Nat.mod_lt _ (by decide)⟩

/-- `base64.b64encode`, producing text: bytes are consumed three at a
time into four base64 digits, with `=` padding for a short final
group. -/
def b64encode : List Nat → List Char
  | [] => []
  | [a] => [b64Table (a % 256 / 4), b64Table (a % 4 * 16), '=', '=']
  | [a, b] =>
    [b64Table (a % 256 / 4), b64Table (a % 4 * 16 + b % 256 / 16),
     b64Table (b % 16 * 4), '=']
  | a :: b :: c :: rest =>
    b64Table (a % 256 / 4) :: b64Table (a % 4 * 16 + b % 256 / 16) ::
    b64Table (b % 16 * 4 + c % 256 / 64) :: b64Table (c % 64) :: b64encode rest

/-- A character `base64.b64decode` keeps: an alphabet character or the
padding character (everything else is discarded before decoding). -/
def isB64Sym (c : Char) : Bool := decide (c ∈ b64Chars) || decide (c = '=')

/-- The discard pass of `base64.b64decode` (non-validating mode). -/
def b64Filter (s : List Char) : List Char := s.filter isB64Sym

/-- The value of one base64 digit; `none` for a non-alphabet character
(including `'='`). -/
def b64Val (c : Char) : Option Nat :=
  if _h : c ∈ b64Chars then some (b64Chars.indexOf c) else none

/-- Quad-by-quad decoding of a filtered base64 text: every group of four
digits yields three bytes, a final group may carry `=` padding, and any
leftover of one to three characters is a padding error (`binascii`
raises, modelled as `none`). -/
def b64DecodeQuads : List Char → Option (List Nat)
  | [] => some []
  | a :: b :: c :: d :: rest =>
    match b64Val a, b64Val b with
    | some va, some vb =>
      if c = '=' then
        if d = '=' ∧ rest = [] then some [va * 4 + vb / 16] else none
      else
        match b64Val c with
        | some vc =>
          if d = '=' then
            if rest = [] then some [va * 4 + vb / 16, vb % 16 * 16 + vc / 4] else none
          else
            match b64Val d with
            | some vd =>
              (b64DecodeQuads rest).map
                (fun tl => (va * 4 + vb / 16) :: (vb % 16 * 16 + vc / 4) ::
                  (vc % 4 * 64 + vd) :: tl)
            | none => none
        | none => none
    | _, _ => none
  | _ => none

/-- `base64.b64decode` on text, with `none` for the raised
`binascii.Error`. -/
def b64decode (s : List Char) : Option (List Nat) := b64DecodeQuads (b64Filter s)

/-- `padding.PKCS7(128).padder()` on bytes: append `n` copies of `n`
where `n = 16 - len(data) % 16`. -/
def pkcs7Pad (data : List Nat) : List Nat :=
  data ++ List.replicate (16 - data.length % 16) (16 - data.length % 16)

/-- `padding.PKCS7(128).unpadder()` on bytes: the last byte names the
pad length, which must be between 1 and 16, fit in the data, and match
every trailing pad byte; otherwise unpadding raises (`none`). -/
def pkcs7Unpad (data : List Nat) : Option (List Nat) :=
  match data.getLast? with
  | none => none
  | some n =>
    if n = 0 ∨ 16 < n ∨ data.length < n then none
    else if (data.drop (data.length - n)).all (· == n) then
      some (data.take (data.length - n))
    else none

/-- Split a byte list into 16-byte blocks (the final block may be
short), as the CFB mode consumes it. -/
def chunks16 (l : List Nat) : List (List Nat) :=
  if _h : l = [] then [] else l.take 16 :: chunks16 (l.drop 16)
termination_by l.length
decreasing_by
  simp only [List.length_drop]
  have := List.length_pos.mpr _h
  omega

/-- AES-CFB encryption over 16-byte blocks: each plaintext block is
XORed with the block encryption of the previous ciphertext block (the
IV for the first), and the resulting ciphertext block becomes the next
feedback.  The block cipher is the abstract parameter `E`. -/
def cfbEncryptGo (E : List Nat → List Nat) (prev : List Nat) :
    List (List Nat) → List Nat
  | [] => []
  | chunk :: rest =>
    let cchunk := List.zipWith (fun p k => Nat.xor p k % 256) chunk (E prev)
    cchunk ++ cfbEncryptGo E cchunk rest

/-- CFB-mode encryption of a byte string under IV `iv`. -/
def cfbEncrypt (E : List Nat → List Nat) (iv pt : List Nat) : List Nat :=
  cfbEncryptGo E iv (chunks16 pt)

/-- AES-CFB decryption: each ciphertext block is XORed with the block
encryption of the previous ciphertext block (the IV for the first). -/
def cfbDecryptGo (E : List Nat → List Nat) (prev : List Nat) :
    List (List Nat) → List Nat
  | [] => []
  | chunk :: rest =>
    List.zipWith (fun c k => Nat.xor c k % 256) chunk (E prev) ++
      cfbDecryptGo E chunk rest

/-- CFB-mode decryption of a byte string under IV `iv`. -/
def cfbDecrypt (E : List Nat → List Nat) (iv ct : List Nat) : List Nat :=
  cfbDecryptGo E iv (chunks16 ct)

/-- `bytes.decode("utf-8")`, modelled on the ASCII range (user codes are
four ASCII characters); a byte outside it is treated as a decode
failure. -/
def utf8DecodeAscii? (bs : List Nat) : Option Str :=
  if bs.all (fun b => decide (b < 128)) then some (bs.map Char.ofNat) else none

/-- A failure inside the body of `decrypt_cookie_data`. -/
inductive DecryptErr
  | badBase64
  | badIVSize
  | badPad
  | badUtf8
deriving DecidableEq

deriving instance DecidableEq for Except

/-- The body of `IndexView.decrypt_cookie_data` (views.py lines 966-985)
without its `except` wrapper.  `iv_size = 16`, but the slices are taken
from the *base64 text*: `base64.b64decode(encrypted_data_with_iv[:16])`
and `base64.b64decode(encrypted_data_with_iv[16:])`.  The
`cryptography` `Cipher(..., modes.CFB(iv))` construction requires a
16-byte IV and raises `ValueError` otherwise; then the ciphertext is
CFB-decrypted, PKCS7-unpadded, and UTF-8 decoded.  The AES-256 block
encryption keyed by `settings.SECRET_KEY[:32].encode("utf-8")` is
abstracted as the parameter `E` (CFB uses only the forward direction of
the block cipher). -/
def decryptPipeline (E : List Nat → List Nat) (s : Str) : Except DecryptErr Str :=
  match b64decode (s.take 16) with
  | none => .error .badBase64
  | some iv =>
    match b64decode (s.drop 16) with
    | none => .error .badBase64
    | some ct =>
      if iv.length = 16 then
        match pkcs7Unpad (cfbDecrypt E iv ct) with
        | none => .error .badPad
        | some unpadded =>
          match utf8DecodeAscii? unpadded with
          | none => .error .badUtf8
          | some out => .ok out
      else .error .badIVSize

/-- `IndexView.decrypt_cookie_data` (views.py lines 965-988): the whole
body runs inside `try ... except Exception: ... return None`, so every
failure becomes `None`. -/
def decrypt_cookie_data (E : List Nat → List Nat) (s : Str) : Option Str :=
  (decryptPipeline E s).toOption

/-- `IndexView.encrypted_cookie_data` (views.py lines 990-1015): UTF-8
encode the session's user code, PKCS7-pad it, AES-CFB encrypt it under a
fresh random 16-byte IV (here a parameter), and base64-encode
`iv + ciphertext` as text. -/
def encrypted_cookie_data (E : List Nat → List Nat) (iv : List Nat)
    (userCode : Str) : Str :=
  b64encode (iv ++ cfbEncrypt E iv (pkcs7Pad (userCode.map Char.toNat)))

theorem b64Table_mem (n : Nat) : b64Table n ∈ b64Chars := List.get_mem _ _ _

theorem b64Val_of_mem (c : Char) (h : c ∈ b64Chars) :
    b64Val c = some (b64Chars.indexOf c) := dif_pos h

theorem ne_pad_of_mem (c : Char) (h : c ∈ b64Chars) : ¬ (c = '=') := by
  intro hc
  subst hc
  exact absurd h (by decide)

/-- A filtered base64 text of length `4 * k` made of alphabet digits
decodes to exactly `3 * k` bytes. -/
theorem b64DecodeQuads_length (k : Nat) (s : List Char) (hlen : s.length = 4 * k)
    (hmem : ∀ c ∈ s, c ∈ b64Chars) :
    ∃ bytes, b64DecodeQuads s = some bytes ∧ bytes.length = 3 * k := by
  induction k generalizing s with
  | zero =>
    have hnil : s = [] := List.length_eq_zero.mp (by omega)
    subst hnil
    exact ⟨[], by decide, rfl⟩
  | succ k ih =>
    rcases s with _ | ⟨a, s⟩
    · simp only [List.length_nil, List.length_cons] at hlen; omega
    rcases s with _ | ⟨b, s⟩
    · simp only [List.length_nil, List.length_cons] at hlen; omega
    rcases s with _ | ⟨c, s⟩
    · simp only [List.length_nil, List.length_cons] at hlen; omega
    rcases s with _ | ⟨d, s⟩
    · simp only [List.length_nil, List.length_cons] at hlen; omega
    have ha : a ∈ b64Chars := hmem a (by simp)
    have hb : b ∈ b64Chars := hmem b (by simp)
    have hc : c ∈ b64Chars := hmem c (by simp)
    have hd : d ∈ b64Chars := hmem d (by simp)
    have hs4 : s.length = 4 * k := by
      simp only [List.length_cons] at hlen
      omega
    obtain ⟨tl, htl, htlen⟩ := ih s hs4 (fun x hx => hmem x (by simp [hx]))
    have hval : b64DecodeQuads (a :: b :: c :: d :: s)
        = (b64DecodeQuads s).map
            (fun tl => (b64Chars.indexOf a * 4 + b64Chars.indexOf b / 16) ::
              (b64Chars.indexOf b % 16 * 16 + b64Chars.indexOf c / 4) ::
              (b64Chars.indexOf c % 4 * 64 + b64Chars.indexOf d) :: tl) := by
      simp only [b64DecodeQuads, b64Val_of_mem a ha, b64Val_of_mem b hb,
        b64Val_of_mem c hc, b64Val_of_mem d hd,
        if_neg (ne_pad_of_mem c hc), if_neg (ne_pad_of_mem d hd)]
    refine ⟨_, by rw [hval, htl]; rfl, ?_⟩
    simp [htlen]
    omega

/-- Encoding a 12-byte prefix: the first sixteen output characters are
plain alphabet digits (no padding) and the encoder distributes over the
split. -/
theorem b64encode_block12 (l₁ l₂ : List Nat) (h : l₁.length = 12) :
    b64encode (l₁ ++ l₂) = b64encode l₁ ++ b64encode l₂ ∧
    (b64encode l₁).length = 16 ∧ ∀ c ∈ b64encode l₁, c ∈ b64Chars := by
  rcases l₁ with _ | ⟨a0, l₁⟩; · simp at h
  rcases l₁ with _ | ⟨a1, l₁⟩; · simp at h
  rcases l₁ with _ | ⟨a2, l₁⟩; · simp at h
  rcases l₁ with _ | ⟨a3, l₁⟩; · simp at h
  rcases l₁ with _ | ⟨a4, l₁⟩; · simp at h
  rcases l₁ with _ | ⟨a5, l₁⟩; · simp at h
  rcases l₁ with _ | ⟨a6, l₁⟩; · simp at h
  rcases l₁ with _ | ⟨a7, l₁⟩; · simp at h
  rcases l₁ with _ | ⟨a8, l₁⟩; · simp at h
  rcases l₁ with _ | ⟨a9, l₁⟩; · simp at h
  rcases l₁ with _ | ⟨a10, l₁⟩; · simp at h
  rcases l₁ with _ | ⟨a11, l₁⟩; · simp at h
  have h0 : l₁.length = 0 := by
    simp only [List.length_cons] at h
    omega
  have hnil : l₁ = [] := List.length_eq_zero.mp h0
  subst hnil
  refine ⟨by simp [b64encode], by simp [b64encode], ?_⟩
  intro c hc
  simp [b64encode] at hc
  rcases hc with rfl | rfl | rfl | rfl | rfl | rfl | rfl | rfl | rfl | rfl | rfl |
    rfl | rfl | rfl | rfl | rfl <;> exact b64Table_mem _

/-- Decoding the first sixteen characters of the base64 encoding of at
least twelve bytes yields exactly twelve bytes. -/
theorem b64decode_take16 (l : List Nat) (h : 12 ≤ l.length) :
    ∃ bytes, b64decode ((b64encode l).take 16) = some bytes ∧ bytes.length = 12 := by
  have h12 : (l.take 12).length = 12 := by
    simp [List.length_take]
    omega
  obtain ⟨henc, hlen16, hmem⟩ := b64encode_block12 (l.take 12) (l.drop 12) h12
  have hsplit : b64encode l = b64encode (l.take 12) ++ b64encode (l.drop 12) := by
    conv_lhs => rw [← List.take_append_drop 12 l]
    exact henc
  rw [hsplit, ← hlen16, List.take_left]
  unfold b64decode b64Filter
  rw [List.filter_eq_self.mpr (fun a ha => by simp [isB64Sym, hmem a ha])]
  exact b64DecodeQuads_length 4 _ (by rw [hlen16]) hmem

/-- C2: decrypting a freshly sealed token never recovers the user code —
it always returns `None`.  `decrypt_cookie_data` slices the base64
*text* at 16 characters, so the recovered "IV" is the decoding of
sixteen base64 digits: twelve bytes, not sixteen.  The
`modes.CFB(iv)` construction then raises `ValueError`, the blanket
`except` returns `None`, and `open(seal(code))` is `None` for every
block cipher `E`, every 16-byte IV, and every user code. -/
theorem decrypt_of_fresh_token_returns_none (E : List Nat → List Nat)
    (iv : List Nat) (code : Str) (hiv : iv.length = 16) :
    decrypt_cookie_data E (encrypted_cookie_data E iv code) = none := by
  have h12 : 12 ≤ (iv ++ cfbEncrypt E iv (pkcs7Pad (code.map Char.toNat))).length := by
    rw [List.length_append, hiv]
    omega
  obtain ⟨bytes, hdec, hblen⟩ := b64decode_take16 _ h12
  have hne : ¬ (bytes.length = 16) := by omega
  unfold decrypt_cookie_data decryptPipeline encrypted_cookie_data
  rw [hdec]
  cases hct : b64decode
      ((b64encode (iv ++ cfbEncrypt E iv (pkcs7Pad (code.map Char.toNat)))).drop 16) with
  | none => simp [Except.toOption]
  | some ct => simp [hne, Except.toOption]

/-- Witness for `decrypt_of_fresh_token_returns_none`: a concrete block
cipher, the all-zero 16-byte IV, and the user code `"bcfg"`. -/
theorem decrypt_of_fresh_token_returns_none_witness :
    (List.replicate 16 0).length = 16 ∧
    decrypt_cookie_data (fun _ => List.replicate 16 0)
        (encrypted_cookie_data (fun _ => List.replicate 16 0)
          (List.replicate 16 0) "bcfg".toList) = none :=
  ⟨by decide,
   decrypt_of_fresh_token_returns_none (fun _ => List.replicate 16 0)
     (List.replicate 16 0) "bcfg".toList (by decide)⟩

/-- C8: any failure inside the body of `decrypt_cookie_data` — malformed
base64, wrong IV size, bad padding, undecodable plaintext — is caught by
the blanket `except Exception` and surfaces as `None`, never as an
exception to the caller. -/
theorem decrypt_failure_returns_none (E : List Nat → List Nat) (s : Str)
    (h : ∃ e, decryptPipeline E s = .error e) :
    decrypt_cookie_data E s = none := by
  obtain ⟨e, he⟩ := h
  simp [decrypt_cookie_data, he, Except.toOption]

/-- Witness for `decrypt_failure_returns_none`: the malformed token
`"not-a-valid-token"` (its first sixteen characters filter down to
thirteen base64 digits, an invalid quad count). -/
theorem decrypt_failure_returns_none_witness :
    (∃ e, decryptPipeline (fun _ => List.replicate 16 0)
        ("not-a-valid-token".toList) = .error e) ∧
    decrypt_cookie_data (fun _ => List.replicate 16 0)
        ("not-a-valid-token".toList) = none :=
  ⟨⟨.badBase64, by decide⟩,
   decrypt_failure_returns_none (fun _ => List.replicate 16 0)
     ("not-a-valid-token".toList) ⟨.badBase64, by decide⟩⟩

/-- ASCII uppercase conversion of one character (Python's `str.upper`
restricted to the ASCII range, which covers the headings
in play). -/
def asciiUpper (c : Char) : Char :=
  if c.isLower then Char.ofNat (c.toNat - 32) else c

/-- ASCII lowercase conversion of one character. -/
def asciiLower (c : Char) : Char :=
  if c.isUpper then Char.ofNat (c.toNat + 32) else c

/-- Python's `str.capitalize()` on the ASCII range: first character
uppercased, every following character lowercased. -/
def capitalizeStr : Str → Str
  | [] => []
  | c :: rest => asciiUpper c :: rest.map asciiLower

/-- The heading normalization of `store_excel_to_model` (views.py line
938): `str(heading).capitalize().replace(" ", "_")`. -/
def normalizeHeading (h : Str) : Str :=
  (capitalizeStr h).map (fun c => if c = ' ' then '_' else c)

/-- An exception raised by the spreadsheet import
(`custom_exceptions.py`): missing session values, duplicate raw column
names in the dataframe (`SimilarItemHeadingError`), or a normalized
heading that already exists for the user
(`SimilarItemHeadingDataError`, carrying the old and new item lists). -/
inductive ExcelError
  | sessionValuesNotFound
  | similarItemHeading
  | similarItemHeadingData (heading : Str) (oldData newData : List Str)
deriving DecidableEq

/-- The column loop of `store_excel_to_model` (views.py lines 936-957):
each raw column heading is normalized and checked against
`instance_item_headings` — the queryset of the user's stored headings,
evaluated once before the loop and cached by Django, hence a fixed
snapshot — and either appended to the store or the whole import fails
with `SimilarItemHeadingDataError` (old data looked up from the store,
new data from the column); `transaction.atomic` rolls any partial
inserts back, so the error case leaves the store unchanged. -/
def storeExcelGo (existingHeadings : List Str) (existing : List Row) :
    List (Str × List Str) → List Row → Except ExcelError (List Row)
  | [], acc => .ok acc
  | (h, vals) :: rest, acc =>
    let fh := normalizeHeading h
    if fh ∈ existingHeadings then
      .error (.similarItemHeadingData fh ((existing.lookup fh).getD []) vals)
    else storeExcelGo existingHeadings existing rest (acc ++ [(fh, vals)])

/-- `IndexView.store_excel_to_model` (views.py lines 925-960) for a
user `u` whose stored rows are `existing`.  The spreadsheet has already
been shaped into `columns` — ordered (raw heading, values) pairs, as
`excel_to_dataframe` produces them — and that function's duplicate check
on the *raw* column names (views.py line 915, `SimilarItemHeadingError`)
runs first.  An empty `user_code` raises
`SessionValuesNotFoundError`. -/
def store_excel_to_model (u : Str) (existing : List Row)
    (columns : List (Str × List Str)) : Except ExcelError (List Row) :=
  if u = [] then .error .sessionValuesNotFound
  else if (columns.map Prod.fst).Nodup then
    (storeExcelGo (existing.map Prod.fst) existing columns []).map
      (fun inserted => existing ++ inserted)
  else .error .similarItemHeading

/-- C10: spreadsheet import normalizes every column heading with
`str(heading).capitalize().replace(" ", "_")` before storing and before
the conflict check: `"NAME"` and `"name"` normalize identically (case),
as do `"first name"` and `"first_name"` (spacing); a successful import
stores exactly the normalized heading; and a column whose normalized
heading is already stored for the user collides, failing with
`SimilarItemHeadingDataError` carrying the old and new item lists. -/
theorem store_excel_normalizes_before_conflict_check (u : Str)
    (existing : List Row) (col : Str) (vals : List Str) (hu : u ≠ [])
    (hmem : normalizeHeading col ∈ existing.map Prod.fst) :
    normalizeHeading ("NAME".toList) = normalizeHeading ("name".toList) ∧
    normalizeHeading ("first name".toList) = normalizeHeading ("first_name".toList) ∧
    store_excel_to_model u [] [(col, vals)] = .ok [(normalizeHeading col, vals)] ∧
    store_excel_to_model u existing [(col, vals)]
      = .error (.similarItemHeadingData (normalizeHeading col)
          ((existing.lookup (normalizeHeading col)).getD []) vals) := by
  refine ⟨by decide, by decide, ?_, ?_⟩
  · simp [store_excel_to_model, storeExcelGo, hu, Except.map]
  · simp [store_excel_to_model, storeExcelGo, hu, hmem, Except.map]

/-- Witness for `store_excel_normalizes_before_conflict_check`: user
`"bcfg"` already stores heading `"Name"`, and importing a column named
`"NAME"` collides with it. -/
theorem store_excel_normalizes_before_conflict_check_witness :
    ("bcfg".toList ≠ ([] : Str)) ∧
    normalizeHeading ("NAME".toList)
      ∈ ([("Name".toList, ["x".toList])] : List Row).map Prod.fst ∧
    store_excel_to_model "bcfg".toList [("Name".toList, ["x".toList])]
        [("NAME".toList, ["y".toList])]
      = .error (.similarItemHeadingData (normalizeHeading ("NAME".toList))
          ((([("Name".toList, ["x".toList])] : List Row).lookup
            (normalizeHeading ("NAME".toList))).getD []) ["y".toList]) :=
  ⟨by decide, by decide,
   (store_excel_normalizes_before_conflict_check "bcfg".toList
     [("Name".toList, ["x".toList])] ("NAME".toList) ["y".toList]
     (by decide) (by decide)).2.2.2⟩

end Autoficate
